import Mathlib

/-!
The account registration hooks of anychaindb.

A shallow embedding of `abci-app/account_add.go`: the two hooks
`checkAccountAddTransaction` and `deliverAccountAddTransaction` that the
consensus engine calls for an account-add transaction.

The hooks call into three other packages of the repository, `state`
(`Account.UnmarshalMsg`, `State.HasAccount`, `State.AddAccount`), `crypto`
(`NewFromStrings`) and `transaction` (`Transaction`).  The functions the hooks
call are parameters of the embedding (`Imports`, `StateAPI`), so that what is
proved about a hook holds for every implementation of them.  Where a property
depends on what `AddAccount` itself does, it is stated over `state.State`, a
ledger written from the specification, whose `AddAccount` has the three outcomes
of §4.3: ok, `DuplicateAccountError` and `StorageError`.

A Go `error` result is an `Option GoError` (`none` is `nil`); the ledger the
hooks receive by pointer is passed in and returned explicitly.
-/

/-- Go's `[]byte`, one natural number below 256 per byte. -/
abbrev Bytes := List Nat

deriving instance DecidableEq for Except

/-- A non-nil Go `error`, identified by the text its `Error()` method returns. -/
structure GoError where
  msg : String
deriving DecidableEq, Repr

namespace errors

/-- Go's `errors.New`. -/
def New (text : String) : GoError := ⟨text⟩

end errors

/-- The error kind `DuplicateAccountError` of the specification (§7); in the code
it is the value `errors.New("account exists")`. -/
def DuplicateAccountError : GoError := errors.New "account exists"

namespace state

/-- Modelled from the spec: the record type `state.Account` (§3), of which the
hooks read the fields `ID` and `PubKey`. -/
structure Account where
  ID : String
  PubKey : String
deriving DecidableEq, Repr

end state

namespace transaction

/-- Modelled from the spec: the type `transaction.Transaction` (§3), a type tag
and a byte payload; the hooks read only `Data`. -/
structure Transaction where
  TxType : String
  Data : Bytes
deriving DecidableEq, Repr

end transaction

/-- The functions of the packages `state` and `crypto` that a hook calls without
a ledger: `(*Account).UnmarshalMsg`, which returns the decoded record and the
bytes left over or an error, and `crypto.NewFromStrings(pub, priv)`, which
returns a key of type `κ` or an error. -/
structure Imports (κ : Type) where
  UnmarshalMsg : Bytes → Except GoError (state.Account × Bytes)
  NewFromStrings : String → String → Except GoError κ

/-- The two methods of `*state.State` that the hooks call, over a ledger of
type `σ`: `HasAccount` (a read) and `AddAccount`, which returns its `error`
result and the ledger it leaves. -/
structure StateAPI (σ : Type) where
  HasAccount : σ → String → Bool
  AddAccount : σ → state.Account → Option GoError × σ

namespace app

/-- The hook `checkAccountAddTransaction(tx, s)` of `account_add.go`. -/
def checkAccountAddTransaction {σ κ : Type} (imp : Imports κ) (api : StateAPI σ)
    (tx : transaction.Transaction) (s : σ) : Option GoError × σ :=
  match imp.UnmarshalMsg tx.Data with
  | .error err => (some err, s)
  | .ok (data, _) =>
    if api.HasAccount s data.ID then
      (some (errors.New "account exists"), s)
    else
      match imp.NewFromStrings data.PubKey "" with
      | .error err => (some err, s)
      | .ok _ => (none, s)

/-- The hook `deliverAccountAddTransaction(tx, s)` of `account_add.go`. -/
def deliverAccountAddTransaction {σ κ : Type} (imp : Imports κ) (api : StateAPI σ)
    (tx : transaction.Transaction) (s : σ) : Option GoError × σ :=
  match imp.UnmarshalMsg tx.Data with
  | .error err => (some err, s)
  | .ok (data, _) => api.AddAccount s data

/-- The engine re-checking one transaction `n` times in a row (mempool re-check):
the results of the calls in order, and the ledger after the last one. -/
def recheck {σ κ : Type} (imp : Imports κ) (api : StateAPI σ)
    (tx : transaction.Transaction) : Nat → σ → List (Option GoError) × σ
  | 0, s => ([], s)
  | n + 1, s =>
    let r := checkAccountAddTransaction imp api tx s
    let rs := recheck imp api tx n r.2
    (r.1 :: rs.1, rs.2)

end app

namespace state

/-- Modelled from the spec: the ledger type `state.State` (§3), the handle to a
store: a mapping from `ID` to `Account` to which entries are only ever added,
here the records in the order they were added, and the condition of its backend,
the `StorageError` (§7) it reports on an insert, `none` when it accepts one. -/
structure State where
  accounts : List Account
  fault : Option GoError
deriving DecidableEq, Repr

/-- Modelled from the spec: the read path of the ledger, the record stored
under an `ID` if there is one. -/
def State.GetAccount (s : State) (id : String) : Option Account :=
  s.accounts.find? (fun a => a.ID == id)

/-- Modelled from the spec: `hasAccount(id) -> bool` (§4.3), a read that tells
whether a record is stored under `id`. -/
def State.HasAccount (s : State) (id : String) : Bool :=
  (s.GetAccount id).isSome

/-- Modelled from the spec: `addAccount(record) -> ok | DuplicateAccountError |
StorageError` (§4.3): rejected with `DuplicateAccountError` if the `ID` is already
present; else the insert is attempted, and either the backend reports its
`StorageError` and nothing is stored, or the record is inserted. -/
def State.AddAccount (s : State) (r : Account) : Option GoError × State :=
  if s.HasAccount r.ID then (some DuplicateAccountError, s)
  else
    match s.fault with
    | some e => (some e, s)
    | none => (none, ⟨s.accounts ++ [r], none⟩)

/-- The ledger invariant of §3: no two accounts share an `ID`. -/
def State.NoSharedID (s : State) : Prop :=
  (s.accounts.map (fun a => a.ID)).Nodup

instance (s : State) : Decidable s.NoSharedID := by
  unfold State.NoSharedID; infer_instance

/-- The methods of the ledger `state.State` as the hooks receive them. -/
def api : StateAPI State := ⟨State.HasAccount, State.AddAccount⟩

/-- The methods of a ledger `state.State` whose backend accepts every insert:
`AddAccount` finds no fault in the store. -/
def reliableApi : StateAPI State :=
  ⟨State.HasAccount, fun s r => State.AddAccount ⟨s.accounts, none⟩ r⟩

end state

namespace sample

/-- Modelled from the spec: a wire format for the Codec (§4.1, §6 leave the
format to the implementer): a string is one length byte followed by that many
bytes, one character each. -/
def readString : Bytes → Option (String × Bytes)
  | [] => none
  | n :: rest =>
    if n ≤ rest.length then some (String.mk ((rest.take n).map Char.ofNat), rest.drop n)
    else none

/-- Modelled from the spec: `decode(bytes) -> Account | DecodeError` (§4.1) for
the wire format of `readString`: the `ID`, then the `PubKey`. -/
def UnmarshalMsg (b : Bytes) : Except GoError (state.Account × Bytes) :=
  match readString b with
  | none => .error (errors.New "msgp: too few bytes left to read object")
  | some (id, rest) =>
    match readString rest with
    | none => .error (errors.New "msgp: too few bytes left to read object")
    | some (pub, rest2) => .ok (⟨id, pub⟩, rest2)

/-- The key a validator returns: the two strings it was built from. -/
structure Key where
  pub : String
  priv : String
deriving DecidableEq, Repr

/-- Modelled from the spec: `validate(pubKey) -> ok | InvalidKeyError` (§4.2), a
check of encoding and length only: a key is well-formed when it is not empty and
each character is a letter, a digit or one of `+ / = :`. -/
def NewFromStrings (pub priv : String) : Except GoError Key :=
  if pub.data ≠ [] ∧ pub.data.all (fun c => c.isAlphanum || c == '+' || c == '/' || c == '=' || c == ':') then
    .ok ⟨pub, priv⟩
  else .error (errors.New "invalid public key")

/-- The sample codec and key validator together. -/
def imports : Imports Key := ⟨UnmarshalMsg, NewFromStrings⟩

/-- The payload of `Account{ID: "a1", PubKey: "k:A="}` in the sample format. -/
def goodData : Bytes := [2, 97, 49, 4, 107, 58, 65, 61]

/-- The payload of `Account{ID: "a2", PubKey: "k:A="}` in the sample format. -/
def goodDataA2 : Bytes := [2, 97, 50, 4, 107, 58, 65, 61]

/-- The payload of `Account{ID: "a1", PubKey: "?"}`: a malformed key. -/
def badKeyData : Bytes := [2, 97, 49, 1, 63]

/-- A payload that does not decode: it announces five bytes and has one. -/
def truncatedData : Bytes := [5, 97]

/-- A ledger that already holds an account under `"a1"`. -/
def ledgerA1 : state.State := ⟨[⟨"a1", "k:B="⟩], none⟩

/-- The empty ledger. -/
def emptyLedger : state.State := ⟨[], none⟩

/-- The empty ledger on a backend that is down: an insert reports a
`StorageError`. -/
def downLedger : state.State := ⟨[], some (errors.New "storage: no reachable servers")⟩

end sample

/-! ## Lemmas on the ledger `state.State` -/

namespace state

theorem State.hasAccount_append (s : State) (r : Account) (id : String)
    (f : Option GoError) :
    State.HasAccount ⟨s.accounts ++ [r], f⟩ id = (s.HasAccount id || r.ID == id) := by
  simp only [State.HasAccount, State.GetAccount, List.find?_append]
  cases h : List.find? (fun a => a.ID == id) s.accounts with
  | some a => simp
  | none =>
    cases hr : (r.ID == id) <;> simp [List.find?, hr]

theorem State.getAccount_append_of_absent (s : State) (r : Account)
    (f : Option GoError) (h : s.HasAccount r.ID = false) :
    State.GetAccount ⟨s.accounts ++ [r], f⟩ r.ID = some r := by
  simp only [State.HasAccount, State.GetAccount] at h
  simp only [State.GetAccount, List.find?_append]
  cases hf : List.find? (fun a => a.ID == r.ID) s.accounts with
  | some a => simp [hf] at h
  | none => simp [List.find?]

theorem State.not_mem_of_absent (s : State) (id : String)
    (h : s.HasAccount id = false) : id ∉ s.accounts.map (fun a => a.ID) := by
  simp only [State.HasAccount, State.GetAccount] at h
  intro hmem
  obtain ⟨a, ha, rfl⟩ := List.mem_map.1 hmem
  cases hf : List.find? (fun b => b.ID == a.ID) s.accounts with
  | some b => simp [hf] at h
  | none =>
    have := List.find?_eq_none.1 hf a ha
    simp at this

theorem State.addAccount_noSharedID (s : State) (r : Account) (h : s.NoSharedID) :
    (s.AddAccount r).2.NoSharedID := by
  unfold State.AddAccount
  by_cases hp : s.HasAccount r.ID = true
  · simpa [hp] using h
  · have hp2 : s.HasAccount r.ID = false := by simpa using hp
    have hnot := State.not_mem_of_absent s r.ID hp2
    cases hf : s.fault with
    | some e => simpa [hp2] using h
    | none =>
      simp only [State.NoSharedID] at h
      simp only [hp2, State.NoSharedID, Bool.false_eq_true, if_false, List.map_append,
        List.map_cons, List.map_nil]
      rw [List.nodup_append]
      refine ⟨h, by simp, ?_⟩
      intro x hx hx2
      simp only [List.mem_singleton] at hx2
      subst hx2
      exact hnot hx

theorem State.reliable_addAccount_fails_only_on_present (t : State) (a : Account)
    (h : (reliableApi.AddAccount t a).1 ≠ none) : reliableApi.HasAccount t a.ID = true := by
  simp only [reliableApi, State.AddAccount, State.HasAccount, State.GetAccount] at h ⊢
  cases hp : (List.find? (fun b => b.ID == a.ID) t.accounts).isSome with
  | true => rfl
  | false => simp [hp] at h

end state

/-! ## The hooks -/

namespace app

theorem check_snd {σ κ : Type} (imp : Imports κ) (api : StateAPI σ)
    (tx : transaction.Transaction) (s : σ) :
    (checkAccountAddTransaction imp api tx s).2 = s := by
  unfold checkAccountAddTransaction
  split
  · rfl
  · split
    · rfl
    · split <;> rfl

theorem recheck_eq {σ κ : Type} (imp : Imports κ) (api : StateAPI σ)
    (tx : transaction.Transaction) (s : σ) (n : Nat) :
    recheck imp api tx n s
      = (List.replicate n (checkAccountAddTransaction imp api tx s).1, s) := by
  induction n with
  | zero => rfl
  | succ n ih =>
    simp only [recheck, check_snd, ih, List.replicate_succ]

/-- C1: for every ledger `s` and transaction `tx` whose `Data` decodes to an
account `r` with `HasAccount(r.ID) = false` and a `PubKey` for which
`crypto.NewFromStrings(r.PubKey, "")` returns no error,
`checkAccountAddTransaction(tx, s)` returns `nil`. -/
theorem check_accepts_fresh_account {σ κ : Type} (imp : Imports κ) (api : StateAPI σ)
    (tx : transaction.Transaction) (s : σ) (r : state.Account) (rest : Bytes) (k : κ)
    (hdec : imp.UnmarshalMsg tx.Data = .ok (r, rest))
    (habs : api.HasAccount s r.ID = false)
    (hkey : imp.NewFromStrings r.PubKey "" = .ok k) :
    (checkAccountAddTransaction imp api tx s).1 = none := by
  simp [checkAccountAddTransaction, hdec, habs, hkey]

/-- Witness of C1: the payload of `Account{"a1", "k:A="}` on the empty ledger. -/
theorem check_accepts_fresh_account_witness :
    sample.UnmarshalMsg sample.goodData = .ok (⟨"a1", "k:A="⟩, [])
    ∧ state.State.HasAccount sample.emptyLedger "a1" = false
    ∧ sample.NewFromStrings "k:A=" "" = .ok ⟨"k:A=", ""⟩
    ∧ (checkAccountAddTransaction sample.imports state.api
        ⟨"account-add", sample.goodData⟩ sample.emptyLedger).1 = none :=
  ⟨by decide, by decide, by decide,
    check_accepts_fresh_account sample.imports state.api ⟨"account-add", sample.goodData⟩
      sample.emptyLedger ⟨"a1", "k:A="⟩ [] ⟨"k:A=", ""⟩ (by decide) (by decide) (by decide)⟩

/-- C2: for every ledger `s` and transaction `tx` whose `Data` decodes to an
account whose `ID` is present in `s`, `checkAccountAddTransaction(tx, s)` returns
`errors.New("account exists")` whatever the `PubKey` and the key validator are,
and the ledger after the call is `s`.  And on the ledger `state.State`: when
`deliverAccountAddTransaction(tx, s0)` returned `nil` and left the ledger `s1`,
checking the same `tx` on `s1` returns the duplicate-account error. -/
theorem check_rejects_present_account :
    (∀ (σ κ : Type) (imp : Imports κ) (api : StateAPI σ) (tx : transaction.Transaction)
        (s : σ) (r : state.Account) (rest : Bytes),
        imp.UnmarshalMsg tx.Data = .ok (r, rest) →
        api.HasAccount s r.ID = true →
        checkAccountAddTransaction imp api tx s = (some (errors.New "account exists"), s))
    ∧ (∀ (κ : Type) (imp : Imports κ) (tx : transaction.Transaction) (s0 s1 : state.State),
        deliverAccountAddTransaction imp state.api tx s0 = (none, s1) →
        checkAccountAddTransaction imp state.api tx s1 = (some DuplicateAccountError, s1)) := by
  constructor
  · intro σ κ imp api tx s r rest hdec hpres
    simp [checkAccountAddTransaction, hdec, hpres]
  · intro κ imp tx s0 s1 hdel
    unfold deliverAccountAddTransaction at hdel
    cases hdec : imp.UnmarshalMsg tx.Data with
    | error e => simp [hdec] at hdel
    | ok p =>
      obtain ⟨r, rest⟩ := p
      simp only [hdec, state.api, state.State.AddAccount] at hdel
      by_cases hp : s0.HasAccount r.ID = true
      · simp [hp] at hdel
      · have hp2 : s0.HasAccount r.ID = false := by simpa using hp
        simp only [hp2, Bool.false_eq_true, if_false] at hdel
        cases hf : s0.fault with
        | some e => simp [hf] at hdel
        | none =>
          simp only [hf, Prod.mk.injEq, true_and] at hdel
          subst hdel
          have hnow : state.State.HasAccount ⟨s0.accounts ++ [r], none⟩ r.ID = true := by
            simp [state.State.hasAccount_append]
          simp [checkAccountAddTransaction, hdec, state.api, hnow, DuplicateAccountError]

/-- Witness of C2: `"a1"` is on the ledger and the key `"?"` is malformed; and
the payload delivered on the empty ledger is then checked again. -/
theorem check_rejects_present_account_witness :
    checkAccountAddTransaction sample.imports state.api
        ⟨"account-add", sample.badKeyData⟩ sample.ledgerA1
      = (some (errors.New "account exists"), sample.ledgerA1)
    ∧ checkAccountAddTransaction sample.imports state.api ⟨"account-add", sample.goodData⟩
        ⟨[⟨"a1", "k:A="⟩], none⟩
      = (some DuplicateAccountError, ⟨[⟨"a1", "k:A="⟩], none⟩) :=
  ⟨check_rejects_present_account.1 state.State sample.Key sample.imports state.api
      ⟨"account-add", sample.badKeyData⟩ sample.ledgerA1 ⟨"a1", "?"⟩ [] (by decide) (by decide),
    check_rejects_present_account.2 sample.Key sample.imports ⟨"account-add", sample.goodData⟩
      sample.emptyLedger ⟨[⟨"a1", "k:A="⟩], none⟩ (by decide)⟩

/-- C3, as the code has it: for every ledger `s` and transaction `tx` whose `Data`
decodes to an account whose `ID` is absent from `s` and whose `PubKey` the key
validator rejects with the error `e`, `checkAccountAddTransaction(tx, s)` returns
`e` and the ledger after the call is `s`. -/
theorem check_rejects_malformed_key {σ κ : Type} (imp : Imports κ) (api : StateAPI σ)
    (tx : transaction.Transaction) (s : σ) (r : state.Account) (rest : Bytes) (e : GoError)
    (hdec : imp.UnmarshalMsg tx.Data = .ok (r, rest))
    (habs : api.HasAccount s r.ID = false)
    (hkey : imp.NewFromStrings r.PubKey "" = .error e) :
    checkAccountAddTransaction imp api tx s = (some e, s) := by
  simp [checkAccountAddTransaction, hdec, habs, hkey]

/-- Witness of C3 as amended: the payload of `Account{"a1", "?"}` on the empty
ledger. -/
theorem check_rejects_malformed_key_witness :
    sample.UnmarshalMsg sample.badKeyData = .ok (⟨"a1", "?"⟩, [])
    ∧ state.State.HasAccount sample.emptyLedger "a1" = false
    ∧ sample.NewFromStrings "?" "" = .error (errors.New "invalid public key")
    ∧ checkAccountAddTransaction sample.imports state.api
        ⟨"account-add", sample.badKeyData⟩ sample.emptyLedger
      = (some (errors.New "invalid public key"), sample.emptyLedger) :=
  ⟨by decide, by decide, by decide,
    check_rejects_malformed_key sample.imports state.api ⟨"account-add", sample.badKeyData⟩
      sample.emptyLedger ⟨"a1", "?"⟩ [] (errors.New "invalid public key")
      (by decide) (by decide) (by decide)⟩

/-- C3 as stated fails: the payload of `Account{"a1", "?"}` decodes, the key
validator rejects `"?"` with its own error, and on a ledger that holds `"a1"`
`checkAccountAddTransaction` returns `errors.New("account exists")`, not the
validator's error. -/
theorem check_malformed_key_on_present_id :
    sample.UnmarshalMsg sample.badKeyData = .ok (⟨"a1", "?"⟩, [])
    ∧ sample.NewFromStrings "?" "" = .error (errors.New "invalid public key")
    ∧ checkAccountAddTransaction sample.imports state.api
        ⟨"account-add", sample.badKeyData⟩ sample.ledgerA1
      = (some (errors.New "account exists"), sample.ledgerA1)
    ∧ ¬ (checkAccountAddTransaction sample.imports state.api
        ⟨"account-add", sample.badKeyData⟩ sample.ledgerA1).1
      = some (errors.New "invalid public key") := by
  decide

/-- C4: for every ledger `s` and transaction `tx` whose `Data` does not decode
(`UnmarshalMsg` returns the error `e`), both hooks return `e` and leave the ledger
`s`; and they do so whatever `HasAccount`, `NewFromStrings` and `AddAccount` are,
so none of the three is consulted. -/
theorem decode_error_returned {σ κ : Type} (imp : Imports κ) (api : StateAPI σ)
    (tx : transaction.Transaction) (s : σ) (e : GoError)
    (hdec : imp.UnmarshalMsg tx.Data = .error e) :
    checkAccountAddTransaction imp api tx s = (some e, s)
    ∧ deliverAccountAddTransaction imp api tx s = (some e, s)
    ∧ ∀ (κ2 : Type) (imp2 : Imports κ2) (api2 : StateAPI σ),
        imp2.UnmarshalMsg = imp.UnmarshalMsg →
        checkAccountAddTransaction imp2 api2 tx s = checkAccountAddTransaction imp api tx s
        ∧ deliverAccountAddTransaction imp2 api2 tx s
          = deliverAccountAddTransaction imp api tx s := by
  refine ⟨?_, ?_, ?_⟩
  · simp [checkAccountAddTransaction, hdec]
  · simp [deliverAccountAddTransaction, hdec]
  · intro κ2 imp2 api2 hum
    have hdec2 : imp2.UnmarshalMsg tx.Data = .error e := by rw [hum]; exact hdec
    simp [checkAccountAddTransaction, deliverAccountAddTransaction, hdec, hdec2]

/-- Witness of C4: a truncated payload on a ledger that holds `"a1"`. -/
theorem decode_error_returned_witness :
    sample.UnmarshalMsg sample.truncatedData
      = .error (errors.New "msgp: too few bytes left to read object")
    ∧ checkAccountAddTransaction sample.imports state.api
        ⟨"account-add", sample.truncatedData⟩ sample.ledgerA1
      = (some (errors.New "msgp: too few bytes left to read object"), sample.ledgerA1)
    ∧ deliverAccountAddTransaction sample.imports state.api
        ⟨"account-add", sample.truncatedData⟩ sample.ledgerA1
      = (some (errors.New "msgp: too few bytes left to read object"), sample.ledgerA1) :=
  have h := decode_error_returned sample.imports state.api
    ⟨"account-add", sample.truncatedData⟩ sample.ledgerA1
    (errors.New "msgp: too few bytes left to read object") (by decide)
  ⟨by decide, h.1, h.2.1⟩

/-- C5, as the ledger of the specification has it: on the ledger `state.State`,
for every ledger `s` whose store accepts an insert and every transaction `tx`
whose `Data` decodes to an account `r` with `ID` absent from `s` and a well-formed
`PubKey`, `deliverAccountAddTransaction(tx, s)` returns `nil`, and in the
resulting ledger `HasAccount(r.ID)` is true and the record read back under
`r.ID` is `r`, with the `ID` and `PubKey` decoded from `tx.Data`. -/
theorem deliver_adds_fresh_account {κ : Type} (imp : Imports κ)
    (tx : transaction.Transaction) (s : state.State) (r : state.Account) (rest : Bytes) (k : κ)
    (hdec : imp.UnmarshalMsg tx.Data = .ok (r, rest))
    (habs : s.HasAccount r.ID = false)
    (_hkey : imp.NewFromStrings r.PubKey "" = .ok k)
    (hstore : s.fault = none) :
    (deliverAccountAddTransaction imp state.api tx s).1 = none
    ∧ (deliverAccountAddTransaction imp state.api tx s).2.HasAccount r.ID = true
    ∧ (deliverAccountAddTransaction imp state.api tx s).2.GetAccount r.ID = some r := by
  have hres : deliverAccountAddTransaction imp state.api tx s
      = (none, ⟨s.accounts ++ [r], none⟩) := by
    simp [deliverAccountAddTransaction, hdec, state.api, state.State.AddAccount, habs, hstore]
  rw [hres]
  refine ⟨rfl, ?_, state.State.getAccount_append_of_absent s r none habs⟩
  simp [state.State.hasAccount_append]

/-- Witness of C5 as amended: the payload of `Account{"a2", "k:A="}` on a ledger
that holds `"a1"` only and whose store accepts an insert. -/
theorem deliver_adds_fresh_account_witness :
    (deliverAccountAddTransaction sample.imports state.api
        ⟨"account-add", sample.goodDataA2⟩ sample.ledgerA1).1 = none
    ∧ (deliverAccountAddTransaction sample.imports state.api
        ⟨"account-add", sample.goodDataA2⟩ sample.ledgerA1).2.HasAccount "a2" = true
    ∧ (deliverAccountAddTransaction sample.imports state.api
        ⟨"account-add", sample.goodDataA2⟩ sample.ledgerA1).2.GetAccount "a2"
      = some ⟨"a2", "k:A="⟩ :=
  deliver_adds_fresh_account sample.imports ⟨"account-add", sample.goodDataA2⟩
    sample.ledgerA1 ⟨"a2", "k:A="⟩ [] ⟨"k:A=", ""⟩ (by decide) (by decide) (by decide)
    (by decide)

/-- C5 as stated fails: the payload of `Account{"a1", "k:A="}` decodes, `"a1"` is
absent from the ledger and the key is well-formed, yet on a ledger whose backend
is down `deliverAccountAddTransaction` returns the `StorageError` that
`AddAccount` reports, not `nil`, and `HasAccount("a1")` is still false. -/
theorem deliver_fresh_account_on_down_store :
    sample.UnmarshalMsg sample.goodData = .ok (⟨"a1", "k:A="⟩, [])
    ∧ state.State.HasAccount sample.downLedger "a1" = false
    ∧ sample.NewFromStrings "k:A=" "" = .ok ⟨"k:A=", ""⟩
    ∧ deliverAccountAddTransaction sample.imports state.api
        ⟨"account-add", sample.goodData⟩ sample.downLedger
      = (some (errors.New "storage: no reachable servers"), sample.downLedger)
    ∧ ¬ (deliverAccountAddTransaction sample.imports state.api
        ⟨"account-add", sample.goodData⟩ sample.downLedger).1 = none
    ∧ (deliverAccountAddTransaction sample.imports state.api
        ⟨"account-add", sample.goodData⟩ sample.downLedger).2.HasAccount "a1" = false := by
  decide

/-- C6: for every ledger `s` and transaction `tx`, whatever the outcome,
`checkAccountAddTransaction(tx, s)` leaves the ledger `s`; and `n` Check calls in a
row with the same `tx` all return the result of the first and leave the ledger
`s`, for every `n`. -/
theorem check_frame_and_idempotent {σ κ : Type} (imp : Imports κ) (api : StateAPI σ)
    (tx : transaction.Transaction) (s : σ) :
    (checkAccountAddTransaction imp api tx s).2 = s
    ∧ ∀ n : Nat, recheck imp api tx n s
        = (List.replicate n (checkAccountAddTransaction imp api tx s).1, s) :=
  ⟨check_snd imp api tx s, fun n => recheck_eq imp api tx s n⟩

/-- C7: on the ledger `state.State`, for every ledger `s` and transaction `tx`
whose `Data` decodes to an account whose `ID` is present in `s`,
`deliverAccountAddTransaction(tx, s)` returns `DuplicateAccountError` and leaves
the ledger `s` (so the stored record is neither overwritten nor duplicated); and
for every `tx`, if no two accounts of `s` share an `ID` then none do in the ledger
that Deliver leaves. -/
theorem deliver_rejects_present_account {κ : Type} (imp : Imports κ)
    (tx : transaction.Transaction) (s : state.State) :
    (∀ (r : state.Account) (rest : Bytes),
        imp.UnmarshalMsg tx.Data = .ok (r, rest) →
        s.HasAccount r.ID = true →
        deliverAccountAddTransaction imp state.api tx s = (some DuplicateAccountError, s))
    ∧ (s.NoSharedID → (deliverAccountAddTransaction imp state.api tx s).2.NoSharedID) := by
  constructor
  · intro r rest hdec hpres
    simp [deliverAccountAddTransaction, hdec, state.api, state.State.AddAccount, hpres]
  · intro hinv
    unfold deliverAccountAddTransaction
    cases hdec : imp.UnmarshalMsg tx.Data with
    | error e => simpa using hinv
    | ok p =>
      obtain ⟨r, rest⟩ := p
      exact state.State.addAccount_noSharedID s r hinv

/-- Witness of C7: the payload of `Account{"a1", "k:A="}` on a ledger that holds
`"a1"` with another key, and the payload of `"a2"` on the same ledger. -/
theorem deliver_rejects_present_account_witness :
    sample.UnmarshalMsg sample.goodData = .ok (⟨"a1", "k:A="⟩, [])
    ∧ state.State.HasAccount sample.ledgerA1 "a1" = true
    ∧ deliverAccountAddTransaction sample.imports state.api
        ⟨"account-add", sample.goodData⟩ sample.ledgerA1
      = (some DuplicateAccountError, sample.ledgerA1)
    ∧ sample.ledgerA1.NoSharedID
    ∧ (deliverAccountAddTransaction sample.imports state.api
        ⟨"account-add", sample.goodDataA2⟩ sample.ledgerA1).2.NoSharedID :=
  ⟨by decide, by decide,
    (deliver_rejects_present_account sample.imports ⟨"account-add", sample.goodData⟩
      sample.ledgerA1).1 ⟨"a1", "k:A="⟩ [] (by decide) (by decide),
    by decide,
    (deliver_rejects_present_account sample.imports ⟨"account-add", sample.goodDataA2⟩
      sample.ledgerA1).2 (by decide)⟩

/-- C9: Deliver does not repeat the checks of Check: for every ledger `s` and
transaction `tx` whose `Data` decodes to a record `r`, the result and resulting
ledger of `deliverAccountAddTransaction(tx, s)` are those of `s.AddAccount(r)`, and
they are the same whatever `HasAccount` and `NewFromStrings` are (no lookup and no
key validation of its own).  In particular, when `r.ID` is absent from `s` and the
key validator rejects `r.PubKey` with `e`, Check returns `e` while Deliver still
returns what `AddAccount` returns. -/
theorem deliver_is_addAccount {σ κ : Type} (imp : Imports κ) (api : StateAPI σ)
    (tx : transaction.Transaction) (s : σ) (r : state.Account) (rest : Bytes)
    (hdec : imp.UnmarshalMsg tx.Data = .ok (r, rest)) :
    deliverAccountAddTransaction imp api tx s = api.AddAccount s r
    ∧ (∀ (κ2 : Type) (imp2 : Imports κ2) (api2 : StateAPI σ),
        imp2.UnmarshalMsg = imp.UnmarshalMsg →
        api2.AddAccount = api.AddAccount →
        deliverAccountAddTransaction imp2 api2 tx s
          = deliverAccountAddTransaction imp api tx s)
    ∧ (∀ e : GoError,
        api.HasAccount s r.ID = false →
        imp.NewFromStrings r.PubKey "" = .error e →
        (checkAccountAddTransaction imp api tx s).1 = some e
        ∧ deliverAccountAddTransaction imp api tx s = api.AddAccount s r) := by
  have hdel : deliverAccountAddTransaction imp api tx s = api.AddAccount s r := by
    simp [deliverAccountAddTransaction, hdec]
  refine ⟨hdel, ?_, ?_⟩
  · intro κ2 imp2 api2 hum hadd
    have hdec2 : imp2.UnmarshalMsg tx.Data = .ok (r, rest) := by rw [hum]; exact hdec
    simp [deliverAccountAddTransaction, hdec, hdec2, hadd]
  · intro e habs hkey
    exact ⟨by simp [checkAccountAddTransaction, hdec, habs, hkey], hdel⟩

/-- Witness of C9: the payload of `Account{"a1", "?"}` on the empty ledger `state.State`:
Check returns the validator's error, Deliver inserts the record and returns `nil`. -/
theorem deliver_is_addAccount_witness :
    sample.UnmarshalMsg sample.badKeyData = .ok (⟨"a1", "?"⟩, [])
    ∧ (checkAccountAddTransaction sample.imports state.api
        ⟨"account-add", sample.badKeyData⟩ sample.emptyLedger).1
      = some (errors.New "invalid public key")
    ∧ deliverAccountAddTransaction sample.imports state.api
        ⟨"account-add", sample.badKeyData⟩ sample.emptyLedger
      = state.State.AddAccount sample.emptyLedger ⟨"a1", "?"⟩
    ∧ state.State.AddAccount sample.emptyLedger ⟨"a1", "?"⟩
      = (none, ⟨[⟨"a1", "?"⟩], none⟩) :=
  have h := (deliver_is_addAccount sample.imports state.api
    ⟨"account-add", sample.badKeyData⟩ sample.emptyLedger ⟨"a1", "?"⟩ [] (by decide)).2.2
    (errors.New "invalid public key") (by decide) (by decide)
  ⟨by decide, h.1, h.2, by decide⟩

/-- C10: Check is sound with respect to Deliver and not complete.  For every
ledger `s` and transaction `tx`, assuming `AddAccount` fails only when the `ID` is
already present: if `checkAccountAddTransaction(tx, s)` returns `nil` then
`tx.Data` decodes, the decoded `ID` is absent from `s`, the decoded `PubKey` is
accepted by the key validator, and `deliverAccountAddTransaction(tx, s)` returns
`nil`.  The converse fails: whenever the decoded `ID` is absent and the validator
rejects the decoded `PubKey`, Deliver returns `nil` and Check an error; and on the
ledger `state.State` with the sample codec and validator there are such a ledger
and transaction. -/
theorem check_sound_not_complete {σ κ : Type} (imp : Imports κ) (api : StateAPI σ)
    (tx : transaction.Transaction) (s : σ)
    (hadd : ∀ (t : σ) (a : state.Account),
      (api.AddAccount t a).1 ≠ none → api.HasAccount t a.ID = true) :
    ((checkAccountAddTransaction imp api tx s).1 = none →
      ∃ (r : state.Account) (rest : Bytes) (k : κ),
        imp.UnmarshalMsg tx.Data = .ok (r, rest)
        ∧ api.HasAccount s r.ID = false
        ∧ imp.NewFromStrings r.PubKey "" = .ok k
        ∧ (deliverAccountAddTransaction imp api tx s).1 = none)
    ∧ (∀ (r : state.Account) (rest : Bytes) (e : GoError),
        imp.UnmarshalMsg tx.Data = .ok (r, rest) →
        api.HasAccount s r.ID = false →
        imp.NewFromStrings r.PubKey "" = .error e →
        (deliverAccountAddTransaction imp api tx s).1 = none
        ∧ (checkAccountAddTransaction imp api tx s).1 = some e)
    ∧ (∃ (tx0 : transaction.Transaction) (s0 : state.State),
        (deliverAccountAddTransaction sample.imports state.api tx0 s0).1 = none
        ∧ (checkAccountAddTransaction sample.imports state.api tx0 s0).1 ≠ none) := by
  have hnone : ∀ (t : σ) (a : state.Account),
      api.HasAccount t a.ID = false → (api.AddAccount t a).1 = none := by
    intro t a habs
    by_contra hne
    have := hadd t a hne
    rw [habs] at this
    exact Bool.false_ne_true this
  refine ⟨?_, ?_, ?_⟩
  · intro hchk
    unfold checkAccountAddTransaction at hchk
    cases hdec : imp.UnmarshalMsg tx.Data with
    | error e => simp [hdec] at hchk
    | ok p =>
      obtain ⟨r, rest⟩ := p
      simp only [hdec] at hchk
      cases habs : api.HasAccount s r.ID with
      | true => simp [habs] at hchk
      | false =>
        cases hkey : imp.NewFromStrings r.PubKey "" with
        | error e => simp [habs, hkey] at hchk
        | ok k =>
          refine ⟨r, rest, k, rfl, habs, hkey, ?_⟩
          simp [deliverAccountAddTransaction, hdec, hnone s r habs]
  · intro r rest e hdec habs hkey
    constructor
    · simp [deliverAccountAddTransaction, hdec, hnone s r habs]
    · simp [checkAccountAddTransaction, hdec, habs, hkey]
  · exact ⟨⟨"account-add", sample.badKeyData⟩, sample.emptyLedger, by decide, by decide⟩

/-- Witness of C10: on a ledger `state.State` whose backend accepts every
insert, the payload of `Account{"a1", "k:A="}` passes Check and Deliver on the
empty ledger, and the payload of `Account{"a1", "?"}` passes Deliver and fails
Check. -/
theorem check_sound_not_complete_witness :
    ((checkAccountAddTransaction sample.imports state.reliableApi
        ⟨"account-add", sample.goodData⟩ sample.emptyLedger).1 = none
      ∧ (deliverAccountAddTransaction sample.imports state.reliableApi
        ⟨"account-add", sample.goodData⟩ sample.emptyLedger).1 = none)
    ∧ ((deliverAccountAddTransaction sample.imports state.reliableApi
        ⟨"account-add", sample.badKeyData⟩ sample.emptyLedger).1 = none
      ∧ (checkAccountAddTransaction sample.imports state.reliableApi
        ⟨"account-add", sample.badKeyData⟩ sample.emptyLedger).1
        = some (errors.New "invalid public key")) :=
  have h1 := (check_sound_not_complete sample.imports state.reliableApi
    ⟨"account-add", sample.goodData⟩ sample.emptyLedger
    state.State.reliable_addAccount_fails_only_on_present).1 (by decide)
  have h2 := (check_sound_not_complete sample.imports state.reliableApi
    ⟨"account-add", sample.badKeyData⟩ sample.emptyLedger
    state.State.reliable_addAccount_fails_only_on_present).2.1 ⟨"a1", "?"⟩ []
    (errors.New "invalid public key") (by decide) (by decide) (by decide)
  ⟨⟨by decide, h1.elim fun _ h => h.elim fun _ h => h.elim fun _ h => h.2.2.2⟩, h2⟩

end app
